import Mathlib

/-!
Verification of the dynamodb_pycrud wrapper (src/dynamodb_pycrud/).

The repository is a thin CRUD wrapper over a remote key-value store.  The
wrapper's own logic (helpers in dynamodb_pycrud_helpers.py and the methods of
the DynamoCrud class in dynamodb_pycrud.py) is embedded faithfully below.
The remote storage engine itself is not part of the repository; where a claim
depends on it, the engine is modelled from the specification (those
definitions carry a doc comment starting with the words "Modelled from the
spec").

Python values that the codec supports are modelled by the inductive PyVal:
strings, booleans, integers, floats (as finite signed decimals, the shape
produced by str on an ordinary float), lists and dicts (as ordered
association lists, the shape of a Python dict).
-/

inductive PyVal where
  | str : String → PyVal
  | bool : Bool → PyVal
  | int : Int → PyVal
  | float : Bool → Nat → List Nat → PyVal
  | list : List PyVal → PyVal
  | dict : List (String × PyVal) → PyVal
deriving Repr

-- Structural boolean equality on PyVal (Python's value equality on the
-- supported kinds).
mutual
def pyValBeq : PyVal → PyVal → Bool
  | .str a, .str b => a == b
  | .bool a, .bool b => a == b
  | .int a, .int b => a == b
  | .float n1 i1 f1, .float n2 i2 f2 => n1 == n2 && i1 == i2 && f1 == f2
  | .list l1, .list l2 => pyListBeq l1 l2
  | .dict m1, .dict m2 => pyEntriesBeq m1 m2
  | _, _ => false

def pyListBeq : List PyVal → List PyVal → Bool
  | [], [] => true
  | a :: as_, b :: bs => pyValBeq a b && pyListBeq as_ bs
  | _, _ => false

def pyEntriesBeq : List (String × PyVal) → List (String × PyVal) → Bool
  | [], [] => true
  | (k1, v1) :: r1, (k2, v2) :: r2 => k1 == k2 && pyValBeq v1 v2 && pyEntriesBeq r1 r2
  | _, _ => false
end

mutual
theorem pyValBeq_iff : ∀ a b : PyVal, pyValBeq a b = true ↔ a = b
  | .str a, .str b => by simp [pyValBeq]
  | .str a, .bool b => by simp [pyValBeq]
  | .str a, .int b => by simp [pyValBeq]
  | .str a, .float n i f => by simp [pyValBeq]
  | .str a, .list l => by simp [pyValBeq]
  | .str a, .dict m => by simp [pyValBeq]
  | .bool a, .str b => by simp [pyValBeq]
  | .bool a, .bool b => by simp [pyValBeq]
  | .bool a, .int b => by simp [pyValBeq]
  | .bool a, .float n i f => by simp [pyValBeq]
  | .bool a, .list l => by simp [pyValBeq]
  | .bool a, .dict m => by simp [pyValBeq]
  | .int a, .str b => by simp [pyValBeq]
  | .int a, .bool b => by simp [pyValBeq]
  | .int a, .int b => by simp [pyValBeq]
  | .int a, .float n i f => by simp [pyValBeq]
  | .int a, .list l => by simp [pyValBeq]
  | .int a, .dict m => by simp [pyValBeq]
  | .float n i f, .str b => by simp [pyValBeq]
  | .float n i f, .bool b => by simp [pyValBeq]
  | .float n i f, .int b => by simp [pyValBeq]
  | .float n1 i1 f1, .float n2 i2 f2 => by simp [pyValBeq, and_assoc]
  | .float n i f, .list l => by simp [pyValBeq]
  | .float n i f, .dict m => by simp [pyValBeq]
  | .list l, .str b => by simp [pyValBeq]
  | .list l, .bool b => by simp [pyValBeq]
  | .list l, .int b => by simp [pyValBeq]
  | .list l, .float n i f => by simp [pyValBeq]
  | .list l1, .list l2 => by simp [pyValBeq, pyListBeq_iff l1 l2]
  | .list l, .dict m => by simp [pyValBeq]
  | .dict m, .str b => by simp [pyValBeq]
  | .dict m, .bool b => by simp [pyValBeq]
  | .dict m, .int b => by simp [pyValBeq]
  | .dict m, .float n i f => by simp [pyValBeq]
  | .dict m, .list l => by simp [pyValBeq]
  | .dict m1, .dict m2 => by simp [pyValBeq, pyEntriesBeq_iff m1 m2]

theorem pyListBeq_iff : ∀ a b : List PyVal, pyListBeq a b = true ↔ a = b
  | [], [] => by simp [pyListBeq]
  | [], b :: bs => by simp [pyListBeq]
  | a :: as_, [] => by simp [pyListBeq]
  | a :: as_, b :: bs => by
      simp [pyListBeq, pyValBeq_iff a b, pyListBeq_iff as_ bs]

theorem pyEntriesBeq_iff : ∀ a b : List (String × PyVal), pyEntriesBeq a b = true ↔ a = b
  | [], [] => by simp [pyEntriesBeq]
  | [], b :: bs => by simp [pyEntriesBeq]
  | (k1, v1) :: r1, [] => by simp [pyEntriesBeq]
  | (k1, v1) :: r1, (k2, v2) :: r2 => by
      simp [pyEntriesBeq, pyValBeq_iff v1 v2, pyEntriesBeq_iff r1 r2, and_assoc]
end

instance : DecidableEq PyVal := fun a b => decidable_of_iff _ (pyValBeq_iff a b)

/-! ## Decimal strings

Python's str on an int produces the usual base-10 numeral with an optional
leading minus sign; str on an ordinary float produces sign, integer part,
a dot and at least one fractional digit.  The fuel-based natCharsCore is the
executable digit extraction; it agrees with Mathlib's Nat.digits (shown
below), through which the round-trip proofs go. -/

def digitToChar (d : Nat) : Char := Char.ofNat (48 + d)

def charDigit? (c : Char) : Option Nat :=
  if '0' ≤ c ∧ c ≤ '9' then some (c.toNat - 48) else none

def natCharsCore : Nat → Nat → List Char
  | 0, _ => []
  | fuel + 1, n => if n = 0 then [] else natCharsCore fuel (n / 10) ++ [digitToChar (n % 10)]

def natChars (n : Nat) : List Char :=
  if n = 0 then ['0'] else natCharsCore n n

/-- The characters of Python str(n) for an int n. -/
def intChars (n : Int) : List Char :=
  if n < 0 then '-' :: natChars n.natAbs else natChars n.natAbs

/-- The characters of Python str(x) for an ordinary float x written as
sign, integer part, dot, fractional digits. -/
def floatChars (neg : Bool) (ip : Nat) (frac : List Nat) : List Char :=
  (if neg then ['-'] else []) ++ natChars ip ++ '.' :: frac.map digitToChar

def digitsOfChars : List Char → Option (List Nat)
  | [] => some []
  | c :: cs =>
    match charDigit? c, digitsOfChars cs with
    | some d, some ds => some (d :: ds)
    | _, _ => none

def parseNatChars (cs : List Char) : Option Nat :=
  (digitsOfChars cs).map (fun ds => Nat.ofDigits 10 ds.reverse)

def parseIntChars (cs : List Char) : Option PyVal :=
  if cs.head? = some '-' then (parseNatChars cs.tail).map (fun m => PyVal.int (-(Int.ofNat m)))
  else (parseNatChars cs).map (fun m => PyVal.int (Int.ofNat m))

def parseFloatMag (neg : Bool) (cs : List Char) : Option PyVal :=
  match cs.dropWhile (fun c => !(c == '.')) with
  | _ :: fracCs =>
    if fracCs.isEmpty then none
    else
      match parseNatChars (cs.takeWhile (fun c => !(c == '.'))), digitsOfChars fracCs with
      | some ip, some frac => some (PyVal.float neg ip frac)
      | _, _ => none
  | [] => none

def parseFloatChars (cs : List Char) : Option PyVal :=
  if cs.head? = some '-' then parseFloatMag true cs.tail else parseFloatMag false cs

def hasDot (cs : List Char) : Bool := cs.any (fun c => c == '.')

/-- Modelled from the spec: the numeric half of decode ("Numbers decode to
the most specific native numeric type representable without precision
loss"): a numeral without a dot decodes to an int, one with a dot to a
float.  No decode exists in the repository's own files. -/
def parseNumber (s : String) : Option PyVal :=
  if hasDot s.data then parseFloatChars s.data else parseIntChars s.data

/-! ## The Type Codec

convert_to_dynamodb_format is translated from
src/dynamodb_pycrud/dynamodb_pycrud_helpers.py lines 59-81: strings are
checked first, then booleans strictly before the numeric kinds (the source
comment notes the bool check "must be over int check"), then int, float,
list (element-wise, through the singleton-dict trick of the source) and
dict (recursively).  Every PyVal constructor is one of the supported native
kinds, so the TypeError branch of the source is unreachable here. -/

mutual
def convertValue : PyVal → PyVal
  | .str s => .dict [("S", .str s)]
  | .bool b => .dict [("BOOL", .bool b)]
  | .int n => .dict [("N", .str (String.mk (intChars n)))]
  | .float neg ip frac => .dict [("N", .str (String.mk (floatChars neg ip frac)))]
  | .list l => .dict [("L", .list (convertList l))]
  | .dict m => .dict [("M", .dict (convertEntries m))]

def convertList : List PyVal → List PyVal
  | [] => []
  | v :: vs => convertValue v :: convertList vs

def convertEntries : List (String × PyVal) → List (String × PyVal)
  | [] => []
  | (k, v) :: rest => (k, convertValue v) :: convertEntries rest
end

/-- convert_to_dynamodb_format (helpers lines 59-81): each attribute value of
an item dict is wrapped in its tagged form. -/
def convert_to_dynamodb_format (item : List (String × PyVal)) : List (String × PyVal) :=
  convertEntries item

-- Modelled from the spec: decode, the inverse of the codec ("decode
-- (TaggedValue) -> nativeValue: inverse mapping").  The repository's own
-- files contain no decode; the spec defines it as the inverse of encode,
-- with numbers decoding to the most specific native numeric type.
mutual
def decodeValue : PyVal → Option PyVal
  | .dict [("S", .str s)] => some (.str s)
  | .dict [("BOOL", .bool b)] => some (.bool b)
  | .dict [("N", .str s)] => parseNumber s
  | .dict [("L", .list l)] =>
    match decodeList l with
    | some nl => some (.list nl)
    | none => none
  | .dict [("M", .dict m)] =>
    match decodeEntries m with
    | some nm => some (.dict nm)
    | none => none
  | _ => none

def decodeList : List PyVal → Option (List PyVal)
  | [] => some []
  | v :: vs =>
    match decodeValue v, decodeList vs with
    | some nv, some nvs => some (nv :: nvs)
    | _, _ => none

def decodeEntries : List (String × PyVal) → Option (List (String × PyVal))
  | [] => some []
  | (k, v) :: rest =>
    match decodeValue v, decodeEntries rest with
    | some nv, some nrest => some ((k, nv) :: nrest)
    | _, _ => none
end

/-! Well-formed native values: the floats carry the decimal shape Python's
str actually prints, namely at least one fractional digit with every digit
below ten.  The other kinds are unconstrained. -/

mutual
def wfValue : PyVal → Bool
  | .str _ => true
  | .bool _ => true
  | .int _ => true
  | .float _ _ frac => !frac.isEmpty && frac.all (fun d => decide (d < 10))
  | .list l => wfList l
  | .dict m => wfEntries m

def wfList : List PyVal → Bool
  | [] => true
  | v :: vs => wfValue v && wfList vs

def wfEntries : List (String × PyVal) → Bool
  | [] => true
  | (_, v) :: rest => wfValue v && wfEntries rest
end

/-! ## Round-trip lemmas for the decimal strings -/

theorem charDigit_digitToChar (d : Nat) (h : d < 10) :
    charDigit? (digitToChar d) = some d := by
  interval_cases d <;> decide

theorem digitToChar_ne_dash (d : Nat) (h : d < 10) : digitToChar d ≠ '-' := by
  interval_cases d <;> decide

theorem digitToChar_ne_dot (d : Nat) (h : d < 10) : digitToChar d ≠ '.' := by
  interval_cases d <;> decide

theorem digitsOfChars_map (l : List Nat) (h : ∀ d ∈ l, d < 10) :
    digitsOfChars (l.map digitToChar) = some l := by
  induction l with
  | nil => rfl
  | cons d ds ih =>
    have hd : d < 10 := h d (by simp)
    simp only [List.map_cons, digitsOfChars, charDigit_digitToChar d hd,
      ih (fun x hx => h x (by simp [hx]))]

theorem natCharsCore_eq :
    ∀ fuel n, n ≤ fuel → natCharsCore fuel n = (Nat.digits 10 n).reverse.map digitToChar := by
  intro fuel
  induction fuel with
  | zero =>
    intro n h
    interval_cases n
    simp [natCharsCore]
  | succ f ih =>
    intro n h
    by_cases h0 : n = 0
    · subst h0; simp [natCharsCore]
    · rw [natCharsCore, if_neg h0, ih (n / 10) (by omega),
        Nat.digits_def' (by norm_num : 1 < 10) (Nat.pos_of_ne_zero h0)]
      simp

/-- The digit list of n, most significant first (with a single zero digit
for n = 0, as Python prints it). -/
def natDigitsRev (n : Nat) : List Nat :=
  if n = 0 then [0] else (Nat.digits 10 n).reverse

theorem natChars_eq (n : Nat) : natChars n = (natDigitsRev n).map digitToChar := by
  by_cases h0 : n = 0
  · subst h0; decide
  · rw [natChars, if_neg h0, natDigitsRev, if_neg h0, natCharsCore_eq n n le_rfl]

theorem natDigitsRev_lt (n : Nat) : ∀ d ∈ natDigitsRev n, d < 10 := by
  intro d hd
  by_cases h0 : n = 0
  · subst h0; simp [natDigitsRev] at hd; omega
  · rw [natDigitsRev, if_neg h0, List.mem_reverse] at hd
    exact Nat.digits_lt_base (by norm_num) hd

theorem natDigitsRev_ne_nil (n : Nat) : natDigitsRev n ≠ [] := by
  by_cases h0 : n = 0
  · subst h0; simp [natDigitsRev]
  · rw [natDigitsRev, if_neg h0]
    simp [Nat.digits_ne_nil_iff_ne_zero, h0]

theorem parseNatChars_natChars (n : Nat) : parseNatChars (natChars n) = some n := by
  rw [natChars_eq, parseNatChars, digitsOfChars_map _ (natDigitsRev_lt n)]
  by_cases h0 : n = 0
  · subst h0; simp [natDigitsRev, Nat.ofDigits]
  · rw [natDigitsRev, if_neg h0]
    simp [Nat.ofDigits_digits]

theorem natChars_head_ne_dash (n : Nat) : (natChars n).head? ≠ some '-' := by
  rw [natChars_eq]
  rcases h : natDigitsRev n with _ | ⟨d, ds⟩
  · exact absurd h (natDigitsRev_ne_nil n)
  · have hd : d < 10 := natDigitsRev_lt n d (by rw [h]; simp)
    simpa using digitToChar_ne_dash d hd

theorem natChars_no_dot (n : Nat) : ∀ c ∈ natChars n, (c == '.') = false := by
  rw [natChars_eq]
  intro c hc
  rw [List.mem_map] at hc
  obtain ⟨d, hd, rfl⟩ := hc
  simpa using digitToChar_ne_dot d (natDigitsRev_lt n d hd)

theorem natChars_ne_nil (n : Nat) : natChars n ≠ [] := by
  rw [natChars_eq]
  simp [natDigitsRev_ne_nil n]

theorem hasDot_intChars (n : Int) : hasDot (intChars n) = false := by
  rw [hasDot, List.any_eq_false]
  intro c hc
  rw [intChars] at hc
  by_cases hneg : n < 0
  · rw [if_pos hneg] at hc
    rcases List.mem_cons.mp hc with rfl | hc
    · decide
    · simp [natChars_no_dot _ c hc]
  · rw [if_neg hneg] at hc
    simp [natChars_no_dot _ c hc]

theorem parseNumber_intChars (n : Int) :
    parseNumber (String.mk (intChars n)) = some (PyVal.int n) := by
  have hdata : (String.mk (intChars n)).data = intChars n := rfl
  rw [parseNumber, hdata, hasDot_intChars n, if_neg (by simp)]
  by_cases hneg : n < 0
  · rw [parseIntChars, intChars, if_pos hneg, List.head?_cons, if_pos rfl,
      List.tail_cons, parseNatChars_natChars, Option.map_some']
    simp only [Option.some.injEq, PyVal.int.injEq, Int.ofNat_eq_coe]
    omega
  · rw [parseIntChars, intChars, if_neg hneg,
      if_neg (natChars_head_ne_dash n.natAbs),
      parseNatChars_natChars, Option.map_some']
    simp only [Option.some.injEq, PyVal.int.injEq, Int.ofNat_eq_coe]
    omega

theorem takeWhile_no_dot (l r : List Char) (h : ∀ c ∈ l, (c == '.') = false) :
    (l ++ '.' :: r).takeWhile (fun c => !(c == '.')) = l := by
  induction l with
  | nil => simp [List.takeWhile_cons]
  | cons a as ih =>
    have ha := h a (by simp)
    rw [List.cons_append, List.takeWhile_cons, ha]
    simp only [Bool.not_false, if_pos]
    rw [ih (fun c hc => h c (by simp [hc]))]

theorem dropWhile_no_dot (l r : List Char) (h : ∀ c ∈ l, (c == '.') = false) :
    (l ++ '.' :: r).dropWhile (fun c => !(c == '.')) = '.' :: r := by
  induction l with
  | nil => simp [List.dropWhile_cons]
  | cons a as ih =>
    have ha := h a (by simp)
    rw [List.cons_append, List.dropWhile_cons, ha]
    simp only [Bool.not_false, if_pos]
    exact ih (fun c hc => h c (by simp [hc]))

theorem parseFloatMag_eval (neg : Bool) (ip : Nat) (frac : List Nat)
    (h1 : frac ≠ []) (h2 : ∀ d ∈ frac, d < 10) :
    parseFloatMag neg (natChars ip ++ '.' :: frac.map digitToChar) =
      some (PyVal.float neg ip frac) := by
  have hempty : (frac.map digitToChar).isEmpty = false := by
    cases frac with
    | nil => exact absurd rfl h1
    | cons a l => rfl
  unfold parseFloatMag
  rw [dropWhile_no_dot _ _ (natChars_no_dot ip), takeWhile_no_dot _ _ (natChars_no_dot ip)]
  simp only [parseNatChars_natChars, digitsOfChars_map frac h2, hempty,
    Bool.false_eq_true, if_false]

theorem hasDot_floatChars (neg : Bool) (ip : Nat) (frac : List Nat) :
    hasDot (floatChars neg ip frac) = true := by
  rw [hasDot, List.any_eq_true]
  exact ⟨'.', by simp [floatChars], by decide⟩

theorem parseNumber_floatChars (neg : Bool) (ip : Nat) (frac : List Nat)
    (h1 : frac ≠ []) (h2 : ∀ d ∈ frac, d < 10) :
    parseNumber (String.mk (floatChars neg ip frac)) = some (PyVal.float neg ip frac) := by
  have hdata : (String.mk (floatChars neg ip frac)).data = floatChars neg ip frac := rfl
  rw [parseNumber, hdata, hasDot_floatChars, if_pos rfl]
  cases neg with
  | true =>
    rw [floatChars, if_pos rfl, List.singleton_append, List.cons_append, parseFloatChars,
      List.head?_cons, if_pos rfl, List.tail_cons]
    exact parseFloatMag_eval true ip frac h1 h2
  | false =>
    have hh : (natChars ip ++ '.' :: frac.map digitToChar).head? ≠ some '-' := by
      rcases hl : natChars ip with _ | ⟨c, cs⟩
      · exact absurd hl (natChars_ne_nil ip)
      · have hne := natChars_head_ne_dash ip
        rw [hl] at hne
        rw [List.cons_append, List.head?_cons]
        simpa using hne
    rw [floatChars, if_neg (by simp), List.nil_append, parseFloatChars, if_neg hh]
    exact parseFloatMag_eval false ip frac h1 h2

/-! ## The round trip decode (encode v) = v -/

mutual
theorem rt_value : ∀ v : PyVal, wfValue v = true → decodeValue (convertValue v) = some v
  | .str s, _ => by simp [convertValue, decodeValue]
  | .bool b, _ => by simp [convertValue, decodeValue]
  | .int n, _ => by simp [convertValue, decodeValue, parseNumber_intChars]
  | .float neg ip frac, h => by
      rw [wfValue] at h
      simp only [Bool.and_eq_true, Bool.not_eq_true', List.all_eq_true,
        decide_eq_true_eq] at h
      have h1 : frac ≠ [] := by
        intro he
        rw [he] at h
        simp at h
      simp [convertValue, decodeValue, parseNumber_floatChars neg ip frac h1 h.2]
  | .list l, h => by
      rw [wfValue] at h
      simp [convertValue, decodeValue, rt_list l h]
  | .dict m, h => by
      rw [wfValue] at h
      simp [convertValue, decodeValue, rt_entries m h]

theorem rt_list : ∀ l : List PyVal, wfList l = true → decodeList (convertList l) = some l
  | [], _ => by simp [convertList, decodeList]
  | v :: vs, h => by
      rw [wfList, Bool.and_eq_true] at h
      simp [convertList, decodeList, rt_value v h.1, rt_list vs h.2]

theorem rt_entries :
    ∀ m : List (String × PyVal), wfEntries m = true → decodeEntries (convertEntries m) = some m
  | [], _ => by simp [convertEntries, decodeEntries]
  | (k, v) :: rest, h => by
      rw [wfEntries, Bool.and_eq_true] at h
      simp [convertEntries, decodeEntries, rt_value v h.1, rt_entries rest h.2]
end

/-- A concrete well-formed native value touching every supported kind. -/
def sampleNative : PyVal :=
  .dict [("id", .str "25"), ("isActive", .bool true), ("year", .int 2010),
    ("price", .float false 2 [5]), ("tags", .list [.int (-3), .str "x"]),
    ("meta", .dict [("a", .float true 0 [0, 1])])]

/-- C1: for every supported native value v (string, boolean, integer, float,
list, mapping), decoding the encoded form returns the original value:
decode (encode v) = v, where encode is convert_to_dynamodb_format's value
conversion and decode the spec's inverse mapping. -/
theorem C1_decode_encode_roundtrip (v : PyVal) (h : wfValue v = true) :
    decodeValue (convertValue v) = some v :=
  rt_value v h

theorem C1_decode_encode_roundtrip_witness :
    wfValue sampleNative = true ∧
      decodeValue (convertValue sampleNative) = some sampleNative :=
  ⟨by decide, C1_decode_encode_roundtrip sampleNative (by decide)⟩

/-! ## The table store

A table holds its KeySchema (AttributeName with KeyType HASH or RANGE), its
AttributeDefinitions (AttributeName with AttributeType S, N or B) and the
stored items, each an encoded attribute mapping.  The engine state is the
collection of tables.  The engine itself is not part of the repository; its
operations below are modelled from the spec. -/

structure TableData where
  keySchema : List (String × String)
  attributeDefinitions : List (String × String)
  items : List (List (String × PyVal))
deriving Repr, DecidableEq

structure DB where
  tables : List (String × TableData)
deriving Repr, DecidableEq

/-- Python truthiness of an Optional[str]: None and the empty string are
falsy. -/
def strTruthy : Option String → Bool
  | none => false
  | some s => !(s == "")

def assocGet {α : Type} (d : List (String × α)) (k : String) : Option α :=
  (d.find? (fun e => e.1 == k)).map (fun e => e.2)

def dictGet (d : List (String × PyVal)) (k : String) : Option PyVal :=
  assocGet d k

/-- validate_keys (dynamodb_pycrud_helpers.py lines 5-42): sort key required
when the schema has more than one entry; the partition key must name a HASH
entry; a truthy sort key must name a RANGE entry. -/
def validate_keys (table_description : TableData) (partition_key : String)
    (sort_key : Option String) : Bool :=
  let key_schema := table_description.keySchema
  if decide (key_schema.length > 1) && !strTruthy sort_key then false
  else if !(key_schema.any (fun k => k.1 == partition_key && k.2 == "HASH")) then false
  else if strTruthy sort_key &&
      !(key_schema.any (fun k => k.1 == sort_key.getD "" && k.2 == "RANGE")) then false
  else true

/-- check_item_keys (dynamodb_pycrud_helpers.py lines 46-56): the item must
contain the partition key and, when a truthy sort key is given, the sort
key. -/
def check_item_keys (item : List (String × PyVal)) (partition_key : String)
    (sort_key : Option String) : Bool :=
  if !(item.any (fun e => e.1 == partition_key)) then false
  else if strTruthy sort_key && !(item.any (fun e => e.1 == sort_key.getD "")) then false
  else true

def dbGetTable (db : DB) (name : String) : Option TableData :=
  assocGet db.tables name

def dbSetTable (db : DB) (name : String) (td : TableData) : DB :=
  ⟨db.tables.map (fun e => if e.1 == name then (e.1, td) else e)⟩

/-- The type tag of an encoded value (the single key of its tagged dict). -/
def taggedTag : PyVal → Option String
  | .dict [(t, _)] => some t
  | _ => none

/-- Modelled from the spec: a mapping supplies every declared key attribute
with a value of the declared type (spec section 3: every item must contain
a value for the partition key attribute, and for the sort key attribute if
the table defines one, both matching the declared type). -/
def keyAttrsValid (td : TableData) (m : List (String × PyVal)) : Bool :=
  td.keySchema.all (fun ks =>
    match dictGet m ks.1, assocGet td.attributeDefinitions ks.1 with
    | some v, some ty => taggedTag v == some ty
    | _, _ => false)

/-- Modelled from the spec: two encoded mappings agree on the table's
primary key (spec section 6: storage is keyed by the encoded primary key,
the partition key alone or the composite with the sort key). -/
def samePrimaryKey (td : TableData) (i j : List (String × PyVal)) : Bool :=
  td.keySchema.all (fun ks => dictGet i ks.1 == dictGet j ks.1)

inductive BackendError where
  | resourceNotFound
  | validationError
  | conditionalCheckFailed
deriving Repr, DecidableEq

/-- Modelled from the spec: the engine's PutItem.  The condition expression
attribute_not_exists(a) AND ... is carried as the list of condition
attribute names; it is evaluated against the existing item with the same
primary key and fails the call with ConditionalCheckFailed when that item
carries one of the named attributes (spec 4.3/4.4: conditional write fails
iff an item with the same primary key already exists).  An unconditional
put replaces the whole existing item. -/
def ddbPutItem (db : DB) (name : String) (item : List (String × PyVal))
    (condAttrs : List String) : Except BackendError DB :=
  match dbGetTable db name with
  | none => .error .resourceNotFound
  | some td =>
    if !keyAttrsValid td item then .error .validationError
    else
      match td.items.find? (fun i => samePrimaryKey td i item) with
      | some existing =>
        if condAttrs.any (fun a => existing.any (fun e => e.1 == a)) then
          .error .conditionalCheckFailed
        else
          .ok (dbSetTable db name
            { td with items := td.items.filter (fun i => !samePrimaryKey td i item) ++ [item] })
      | none =>
        .ok (dbSetTable db name { td with items := td.items ++ [item] })

/-- Modelled from the spec: the engine's GetItem requires the key mapping to
supply exactly the declared key attribute names with their declared types
(spec 4.4: getItem "validates that keyAttributes supplies exactly those
names"); anything else is a validation error.  On success it returns the
stored item with that primary key, if any. -/
def ddbGetItem (db : DB) (name : String) (key : List (String × PyVal)) :
    Except BackendError (Option (List (String × PyVal))) :=
  match dbGetTable db name with
  | none => .error .resourceNotFound
  | some td =>
    if !(keyAttrsValid td key &&
        key.all (fun e => td.keySchema.any (fun ks => ks.1 == e.1))) then
      .error .validationError
    else
      .ok (td.items.find? (fun i => samePrimaryKey td i key))

/-- Modelled from the spec: the engine's DeleteItem validates that every
declared key attribute is present with its declared type (spec 4.4: "every
declared key attribute must be present in keyAttributes"), removes the item
matching the primary key and returns its previous attributes (the wrapper
requests ReturnValues ALL_OLD); deleting an absent key succeeds with no
previous attributes. -/
def ddbDeleteItem (db : DB) (name : String) (key : List (String × PyVal)) :
    Except BackendError (Option (List (String × PyVal)) × DB) :=
  match dbGetTable db name with
  | none => .error .resourceNotFound
  | some td =>
    if !keyAttrsValid td key then .error .validationError
    else
      .ok (td.items.find? (fun i => samePrimaryKey td i key),
        dbSetTable db name
          { td with items := td.items.filter (fun i => !samePrimaryKey td i key) })

/-- Modelled from the spec: the engine's Scan returns every item of the
table (full unordered scan). -/
def ddbScan (db : DB) (name : String) :
    Except BackendError (List (List (String × PyVal))) :=
  match dbGetTable db name with
  | none => .error .resourceNotFound
  | some td => .ok td.items

/-- Modelled from the spec: every call returns a definite outcome; a
successful put's client response is a non-empty metadata dictionary. -/
def putSuccessResponse : List (String × PyVal) :=
  [("ResponseMetadata", .dict [])]

/-! ## The DynamoCrud wrapper operations (dynamodb_pycrud.py)

Each method takes the engine state explicitly (the boto3 client held by the
class) and returns what the Python method returns, paired with the new
state for the mutating ones.  An empty dict return is modelled as the empty
association list. -/

/-- describe_table (lines 68-108): the table description, or the empty dict
(none here) when the table does not exist or a client error occurs. -/
def describe_table (db : DB) (table_name : String) : Option TableData :=
  dbGetTable db table_name

def existMessage (table_name : String) : String :=
  "[-] Table '" ++ table_name ++ "' already exists."

def createdMessage (table_name : String) : String :=
  "[+] Table '" ++ table_name ++ "' has been created successfully."

/-- create_table (lines 110-213): if the table already exists, return the
"already exists" message with its current description and change nothing;
otherwise build the KeySchema and AttributeDefinitions (the sort key only
when both its name and its type are truthy), create the table and return
the success message with the fresh description.  The table-exists waiter is
modelled as immediate success; its timing is outside the model. -/
def ctNewTable (partition_key partition_key_type : String)
    (sort_key sort_key_type : Option String) : TableData :=
  let both := strTruthy sort_key && strTruthy sort_key_type
  ⟨[(partition_key, "HASH")] ++ (if both then [(sort_key.getD "", "RANGE")] else []),
   [(partition_key, partition_key_type)] ++
     (if both then [(sort_key.getD "", sort_key_type.getD "")] else []),
   []⟩

def create_table (db : DB) (table_name partition_key partition_key_type : String)
    (sort_key sort_key_type : Option String) : (String × Option TableData) × DB :=
  match dbGetTable db table_name with
  | some td => ((existMessage table_name, some td), db)
  | none =>
    let td := ctNewTable partition_key partition_key_type sort_key sort_key_type
    ((createdMessage table_name, some td), ⟨(table_name, td) :: db.tables⟩)

/-- The condition expression put_item builds (lines 266-271):
attribute_not_exists over the caller's partition key and, when truthy, the
caller's sort key; no condition when prevent_overwrite is false. -/
def condAttrsFor (prevent_overwrite : Bool) (partition_key : String)
    (sort_key : Option String) : List String :=
  if prevent_overwrite then
    [partition_key] ++ (if strTruthy sort_key then [sort_key.getD ""] else [])
  else []

/-- put_item (lines 215-290): describe the table (abort on the empty
description), validate the schema against the caller's keys, check the item
carries the keys, convert the item, and put it with the condition
expression attribute_not_exists over the caller's key names when
prevent_overwrite holds.  Any client error yields the empty dict. -/
def put_item (db : DB) (table_name : String) (item : List (String × PyVal))
    (partition_key : String) (sort_key : Option String) (prevent_overwrite : Bool) :
    List (String × PyVal) × DB :=
  match describe_table db table_name with
  | none => ([], db)
  | some table_description =>
    if !validate_keys table_description partition_key sort_key then ([], db)
    else if !check_item_keys item partition_key sort_key then ([], db)
    else
      let dynamodb_item := convert_to_dynamodb_format item
      match ddbPutItem db table_name dynamodb_item
          (condAttrsFor prevent_overwrite partition_key sort_key) with
      | .error _ => ([], db)
      | .ok db2 => (putSuccessResponse, db2)

/-- The inline guard of get_item (lines 316-337): the partition key name is
derived from the schema's HASH entry and the sort key name from its RANGE
entry; the retrieval is aborted when the partition key is absent from the
key mapping (or the schema has no HASH entry, in which case Python's
"None not in item_key" is vacuously true) or a truthy sort key name is
absent from it. -/
def getItemKeyMissing (table_description : TableData)
    (item_key : List (String × PyVal)) : Bool :=
  let partition_key :=
    (table_description.keySchema.find? (fun k => k.2 == "HASH")).map (fun k => k.1)
  let sort_key :=
    (table_description.keySchema.find? (fun k => k.2 == "RANGE")).map (fun k => k.1)
  let pkMissing := match partition_key with
    | none => true
    | some p => !(item_key.any (fun e => e.1 == p))
  let skMissing := match sort_key with
    | none => false
    | some s => if s == "" then false else !(item_key.any (fun e => e.1 == s))
  pkMissing || skMissing

/-- get_item (lines 292-360): describe the table, derive the partition and
sort key names from its schema, abort with the empty dict when the key
mapping misses one of them, convert the key and fetch; the raw stored item
is returned as-is, and the empty dict stands for every other outcome. -/
def get_item (db : DB) (table_name : String) (item_key : List (String × PyVal)) :
    List (String × PyVal) :=
  match describe_table db table_name with
  | none => []
  | some table_description =>
    if getItemKeyMissing table_description item_key then []
    else
      match ddbGetItem db table_name (convert_to_dynamodb_format item_key) with
      | .error _ => []
      | .ok (some it) => it
      | .ok none => []

/-- get_all_items (lines 362-407): describe the table (empty list on the
empty description), scan, and return the scanned items; a missing table or
client error at the scan also yields the empty list. -/
def get_all_items (db : DB) (table_name : String) : List (List (String × PyVal)) :=
  match describe_table db table_name with
  | none => []
  | some _ =>
    match ddbScan db table_name with
    | .error _ => []
    | .ok items => items

/-- delete_item (lines 409-480): describe the table, require every declared
key name to be present in the key mapping, convert the key and delete with
ReturnValues ALL_OLD; the empty dict stands for a missing item, a missing
table and every client error. -/
def delete_item (db : DB) (table_name : String) (item_key : List (String × PyVal)) :
    List (String × PyVal) × DB :=
  match describe_table db table_name with
  | none => ([], db)
  | some table_description =>
    let key_names := table_description.keySchema.map (fun k => k.1)
    if !(key_names.all (fun r => item_key.any (fun e => e.1 == r))) then ([], db)
    else
      match ddbDeleteItem db table_name (convert_to_dynamodb_format item_key) with
      | .error _ => ([], db)
      | .ok (none, db2) => ([], db2)
      | .ok (some attrs, db2) => (attrs, db2)

/-! ## Concrete fixtures (the spec's running example: table T with partition
key id and sort key book_name, both strings) -/

def sampleTable : TableData :=
  ⟨[("id", "HASH"), ("book_name", "RANGE")], [("id", "S"), ("book_name", "S")], []⟩

def sampleDB : DB := ⟨[("T", sampleTable)]⟩

def sampleItem : List (String × PyVal) :=
  [("id", .str "25"), ("book_name", .str "anotherBook"), ("year", .int 2010)]

def sampleKey : List (String × PyVal) :=
  [("id", .str "25"), ("book_name", .str "anotherBook")]

/-- The sample state after storing sampleItem in table T. -/
def sampleDB1 : DB := (put_item sampleDB "T" sampleItem "id" (some "book_name") true).2

/-! ## Helper lemmas about the model -/

theorem dictGet_isSome_any (m : List (String × PyVal)) (k : String) :
    m.any (fun e => e.1 == k) = (dictGet m k).isSome := by
  induction m with
  | nil => rfl
  | cons a rest ih =>
    by_cases ha : (a.1 == k) = true
    · simp [dictGet, assocGet, List.find?_cons, ha]
    · simp only [Bool.not_eq_true] at ha
      simp [dictGet, assocGet, List.find?_cons, ha] at ih ⊢
      exact ih

theorem convertEntries_dictGet (m : List (String × PyVal)) (k : String) :
    dictGet (convertEntries m) k = (dictGet m k).map convertValue := by
  induction m with
  | nil => rfl
  | cons a rest ih =>
    obtain ⟨ka, va⟩ := a
    by_cases ha : (ka == k) = true
    · simp [convertEntries, dictGet, assocGet, List.find?_cons, ha]
    · simp only [Bool.not_eq_true] at ha
      simp [convertEntries, dictGet, assocGet, List.find?_cons, ha] at ih ⊢
      exact ih

theorem assocGet_set (l : List (String × TableData)) (name : String) (td1 : TableData) :
    ∀ td0, assocGet l name = some td0 →
      assocGet (l.map (fun e => if e.1 == name then (e.1, td1) else e)) name = some td1 := by
  induction l with
  | nil => intro td0 h; simp [assocGet] at h
  | cons a rest ih =>
    intro td0 h
    by_cases ha : (a.1 == name) = true
    · have ha2 : a.1 = name := by simpa using ha
      subst ha2
      simp [assocGet, List.find?_cons]
    · simp only [Bool.not_eq_true] at ha
      simp only [assocGet, List.find?_cons, ha] at h
      simp only [List.map_cons, ha, Bool.false_eq_true, if_false, assocGet,
        List.find?_cons]
      exact ih _ h

theorem dbGetTable_dbSetTable (db : DB) (name : String) (td0 td1 : TableData)
    (h : dbGetTable db name = some td0) :
    dbGetTable (dbSetTable db name td1) name = some td1 :=
  assocGet_set db.tables name td1 td0 h

theorem find?_filter_not {α : Type} (l : List α) (p : α → Bool) :
    (l.filter (fun i => !p i)).find? p = none := by
  rw [List.find?_eq_none]
  intro x hx
  rw [List.mem_filter] at hx
  simp only [Bool.not_eq_true'] at hx
  simp [hx.2]

theorem validate_keys_hash (td : TableData) (pk : String) (sk : Option String)
    (h : validate_keys td pk sk = true) :
    td.keySchema.any (fun k => k.1 == pk && k.2 == "HASH") = true := by
  simp only [validate_keys] at h
  split_ifs at h with h1 h2 h3
  simpa using h2

/-- If no stored item of the named table matches the key, get_item returns
the empty dict whatever else happens. -/
theorem get_item_no_match (db : DB) (name : String) (key : List (String × PyVal))
    (h : ∀ td, describe_table db name = some td →
      ∀ i ∈ td.items, samePrimaryKey td i (convert_to_dynamodb_format key) = false) :
    get_item db name key = [] := by
  unfold get_item
  cases hdt : describe_table db name with
  | none => rfl
  | some td =>
    by_cases hg : getItemKeyMissing td key = true
    · simp [hg]
    · simp only [Bool.not_eq_true] at hg
      simp only [hg, Bool.false_eq_true, if_false]
      cases hb : ddbGetItem db name (convert_to_dynamodb_format key) with
      | error e => rfl
      | ok o =>
        cases o with
        | none => rfl
        | some it =>
          exfalso
          unfold ddbGetItem at hb
          have hdt2 : dbGetTable db name = some td := hdt
          rw [hdt2] at hb
          dsimp only at hb
          split_ifs at hb with hcond
          simp only [Except.ok.injEq] at hb
          have hmem := List.mem_of_find?_eq_some hb
          have hsame := List.find?_some hb
          have hfalse := h td hdt it hmem
          rw [hfalse] at hsame
          cases hsame

/-! ## Claims -/

/-- C9: a native boolean is encoded with the Boolean tag and never with the
Number tag: the codec's boolean branch is taken strictly before the numeric
branches (int, float), so True and False are never misclassified as
numbers. -/
theorem C9_bool_encodes_boolean_never_number :
    ∀ b : Bool, convertValue (.bool b) = .dict [("BOOL", .bool b)] ∧
      ∀ v : PyVal, convertValue (.bool b) ≠ .dict [("N", v)] := by
  intro b
  refine ⟨by simp [convertValue], ?_⟩
  intro v
  simp [convertValue]

/-- C7 as stated is false on the code: get_all_items on a missing table
returns the plain empty list — the very value an empty-table scan returns —
rather than failing with a TableNotFound error (its return type carries no
error at all; the table-missing branches return the empty list). -/
theorem C7_counterexample :
    get_all_items (⟨[]⟩ : DB) "T" = [] ∧ get_all_items sampleDB "T" = [] :=
  ⟨rfl, rfl⟩

/-- C7 amended: get_all_items returns an empty sequence (not an error) when
the named table exists but holds no items, and it also returns the empty
sequence — not a distinct TableNotFound error — when no table with that
name exists. -/
theorem C7_get_all_items_empty (db : DB) (name : String) :
    (∀ td, describe_table db name = some td → td.items = [] →
      get_all_items db name = []) ∧
    (describe_table db name = none → get_all_items db name = []) := by
  constructor
  · intro td h hitems
    unfold get_all_items
    rw [h]
    dsimp only
    unfold ddbScan
    rw [show dbGetTable db name = some td from h]
    dsimp only
    exact hitems
  · intro h
    unfold get_all_items
    rw [h]

theorem C7_get_all_items_empty_witness :
    get_all_items sampleDB "T" = [] ∧ get_all_items (⟨[]⟩ : DB) "T" = [] :=
  ⟨(C7_get_all_items_empty sampleDB "T").1 sampleTable rfl rfl,
   (C7_get_all_items_empty ⟨[]⟩ "T").2 rfl⟩

/-- A key schema of the shape create_table produces: one HASH entry,
optionally followed by one RANGE entry. -/
def schemaShaped (td : TableData) : Prop :=
  (∃ p, td.keySchema = [(p, "HASH")]) ∨
  ∃ p s, td.keySchema = [(p, "HASH"), (s, "RANGE")]

theorem convert_dictGet (m : List (String × PyVal)) (k : String) :
    dictGet (convert_to_dynamodb_format m) k = (dictGet m k).map convertValue :=
  convertEntries_dictGet m k

theorem keyAttrsValid_raw_any (td : TableData) (key : List (String × PyVal))
    (h : keyAttrsValid td (convert_to_dynamodb_format key) = true) :
    ∀ ks ∈ td.keySchema, key.any (fun e => e.1 == ks.1) = true := by
  intro ks hks
  rw [keyAttrsValid, List.all_eq_true] at h
  have hk := h ks hks
  rw [dictGet_isSome_any]
  cases hc : dictGet (convert_to_dynamodb_format key) ks.1 with
  | none =>
    rw [hc] at hk
    cases assocGet td.attributeDefinitions ks.1 <;> simp at hk
  | some v =>
    have hcc := convert_dictGet key ks.1
    rw [hc] at hcc
    cases hck : dictGet key ks.1 with
    | none => rw [hck] at hcc; cases hcc
    | some w => simp

theorem getItemKeyMissing_false (td : TableData) (key : List (String × PyVal))
    (hs : schemaShaped td)
    (h : ∀ ks ∈ td.keySchema, key.any (fun e => e.1 == ks.1) = true) :
    getItemKeyMissing td key = false := by
  rcases hs with ⟨p, hp⟩ | ⟨p, s0, hp⟩
  · have hpk := h (p, "HASH") (by rw [hp]; simp)
    rw [getItemKeyMissing, hp]
    simp [List.find?_cons, hpk]
  · have hpk := h (p, "HASH") (by rw [hp]; simp)
    have hsk := h (s0, "RANGE") (by rw [hp]; simp)
    by_cases hse : (s0 == "") = true
    · rw [getItemKeyMissing, hp]
      simp [List.find?_cons, hpk, hse]
    · simp only [Bool.not_eq_true] at hse
      rw [getItemKeyMissing, hp]
      simp [List.find?_cons, hpk, hsk, hse]

theorem ddbGetItem_ok_valid (db : DB) (name : String) (ck : List (String × PyVal))
    (td : TableData) (hdt : dbGetTable db name = some td)
    (r : Option (List (String × PyVal))) (hb : ddbGetItem db name ck = .ok r) :
    keyAttrsValid td ck = true ∧
      td.items.find? (fun i => samePrimaryKey td i ck) = r := by
  unfold ddbGetItem at hb
  rw [hdt] at hb
  dsimp only at hb
  split_ifs at hb with hcond
  simp only [Bool.not_eq_true, Bool.not_eq_false', Bool.and_eq_true] at hcond
  simp only [Except.ok.injEq] at hb
  exact ⟨hcond.1, hb⟩

/-- C2 fails as stated: get_item does not decode the stored attributes back
to native values.  After putting the native item sampleItem into table T,
get_item with its key returns the tagged storage format, which is not the
native attribute set. -/
theorem C2_counterexample :
    get_item sampleDB1 "T" sampleKey ≠ sampleItem ∧
    get_item sampleDB1 "T" sampleKey = convert_to_dynamodb_format sampleItem := by
  constructor
  · decide
  · decide

/-- C2 amended: for a table whose schema has the created shape, get_item
returns the matching item's full attribute set in the tagged storage format
exactly as stored (not decoded back to native values), and the empty dict
when no matching item exists. -/
theorem C2_get_item_returns_stored (db : DB) (name : String)
    (key : List (String × PyVal)) (td : TableData)
    (hdt : describe_table db name = some td) (hs : schemaShaped td) :
    (∀ it, ddbGetItem db name (convert_to_dynamodb_format key) = .ok (some it) →
      get_item db name key = it) ∧
    (ddbGetItem db name (convert_to_dynamodb_format key) = .ok none →
      get_item db name key = []) := by
  have hmain : ∀ r, ddbGetItem db name (convert_to_dynamodb_format key) = .ok r →
      get_item db name key = (match r with | some it => it | none => []) := by
    intro r hb
    have hv := ddbGetItem_ok_valid db name _ td hdt r hb
    have hguard := getItemKeyMissing_false td key hs (keyAttrsValid_raw_any td key hv.1)
    unfold get_item
    rw [hdt]
    dsimp only
    rw [hguard]
    simp only [Bool.false_eq_true, if_false]
    rw [hb]
    cases r <;> rfl
  constructor
  · intro it hb
    exact hmain (some it) hb
  · intro hb
    exact hmain none hb

theorem C2_get_item_returns_stored_witness :
    get_item sampleDB1 "T" sampleKey = convert_to_dynamodb_format sampleItem ∧
    get_item sampleDB "T" sampleKey = [] :=
  ⟨(C2_get_item_returns_stored sampleDB1 "T" sampleKey
      ⟨[("id", "HASH"), ("book_name", "RANGE")], [("id", "S"), ("book_name", "S")],
        [convert_to_dynamodb_format sampleItem]⟩ rfl
      (Or.inr ⟨"id", "book_name", rfl⟩)).1 _ rfl,
   (C2_get_item_returns_stored sampleDB "T" sampleKey sampleTable rfl
      (Or.inr ⟨"id", "book_name", rfl⟩)).2 rfl⟩

/-- C4: if the table-existence check, the key-schema validation or the
item-key check of put_item fails, the operation aborts with the empty dict
and without any mutation: the state it returns is exactly the state it was
given, so the table's contents as observed by get_all_items are unchanged.
A put of an item missing the declared sort key is the check_item_keys
instance of this. -/
theorem C4_put_item_no_mutation (db : DB) (name : String)
    (item : List (String × PyVal)) (pk : String) (sk : Option String) (po : Bool)
    (h : describe_table db name = none ∨
      ∃ td, describe_table db name = some td ∧
        (validate_keys td pk sk = false ∨ check_item_keys item pk sk = false)) :
    put_item db name item pk sk po = ([], db) ∧
    ∀ t, get_all_items (put_item db name item pk sk po).2 t = get_all_items db t := by
  have hm : put_item db name item pk sk po = ([], db) := by
    rcases h with h | ⟨td, h1, h2 | h2⟩
    · unfold put_item
      rw [h]
    · unfold put_item
      rw [h1]
      dsimp only
      simp [h2]
    · unfold put_item
      rw [h1]
      dsimp only
      by_cases hva : validate_keys td pk sk = true
      · simp [hva, h2]
      · have hva2 : validate_keys td pk sk = false := by
          simp only [Bool.not_eq_true] at hva
          exact hva
        simp [hva2]
  exact ⟨hm, fun t => by rw [hm]⟩

theorem C4_put_item_no_mutation_witness :
    put_item sampleDB "T" [("id", PyVal.str "9")] "id" (some "book_name") false =
      ([], sampleDB) ∧
    get_all_items
        (put_item sampleDB "T" [("id", PyVal.str "9")] "id" (some "book_name") false).2 "T" =
      get_all_items sampleDB "T" :=
  have h := C4_put_item_no_mutation sampleDB "T" [("id", PyVal.str "9")] "id"
    (some "book_name") false (Or.inr ⟨sampleTable, rfl, Or.inr rfl⟩)
  ⟨h.1, h.2 "T"⟩

/-- C5: create_table is idempotent on an existing table.  Calling it when a
table with the name exists returns that table's current description with
the "already exists" status and leaves the state untouched; calling it
twice on a fresh name returns the same description both times (the second
call answers "already exists" with the schema created by the first) and
leaves exactly one table of that name — never two. -/
theorem C5_create_table_idempotent (db : DB) (name pk pkT : String)
    (sk skT : Option String) :
    (∀ td, dbGetTable db name = some td →
      create_table db name pk pkT sk skT = ((existMessage name, some td), db)) ∧
    (dbGetTable db name = none →
      (create_table (create_table db name pk pkT sk skT).2 name pk pkT sk skT).1.1 =
        existMessage name ∧
      (create_table (create_table db name pk pkT sk skT).2 name pk pkT sk skT).1.2 =
        (create_table db name pk pkT sk skT).1.2 ∧
      (create_table (create_table db name pk pkT sk skT).2 name pk pkT sk skT).2 =
        (create_table db name pk pkT sk skT).2 ∧
      ((create_table (create_table db name pk pkT sk skT).2 name pk pkT sk skT).2.tables.filter
        (fun e => e.1 == name)).length = 1) := by
  constructor
  · intro td h
    unfold create_table
    rw [h]
  · intro h
    have e1 : create_table db name pk pkT sk skT =
        ((createdMessage name, some (ctNewTable pk pkT sk skT)),
          ⟨(name, ctNewTable pk pkT sk skT) :: db.tables⟩) := by
      unfold create_table
      rw [h]
    have e2 : dbGetTable (⟨(name, ctNewTable pk pkT sk skT) :: db.tables⟩ : DB) name =
        some (ctNewTable pk pkT sk skT) := by
      simp [dbGetTable, assocGet, List.find?_cons]
    have e3 : create_table (⟨(name, ctNewTable pk pkT sk skT) :: db.tables⟩ : DB)
        name pk pkT sk skT =
        ((existMessage name, some (ctNewTable pk pkT sk skT)),
          ⟨(name, ctNewTable pk pkT sk skT) :: db.tables⟩) := by
      unfold create_table
      rw [e2]
    rw [e1, e3]
    refine ⟨rfl, rfl, rfl, ?_⟩
    have hnone : db.tables.find? (fun e => e.1 == name) = none := by
      unfold dbGetTable assocGet at h
      cases hf : db.tables.find? (fun e => e.1 == name) with
      | none => rfl
      | some a => rw [hf] at h; cases h
    have hnil : db.tables.filter (fun e => e.1 == name) = [] := by
      rw [List.filter_eq_nil_iff]
      exact fun a ha => by
        have := List.find?_eq_none.mp hnone a ha
        simpa using this
    simp [List.filter_cons, hnil]

theorem C5_create_table_idempotent_witness :
    create_table sampleDB "T" "id" "S" (some "book_name") (some "S") =
      ((existMessage "T", some sampleTable), sampleDB) ∧
    ((create_table
        (create_table (⟨[]⟩ : DB) "T" "id" "S" (some "book_name") (some "S")).2
        "T" "id" "S" (some "book_name") (some "S")).2.tables.filter
      (fun e => e.1 == "T")).length = 1 :=
  ⟨(C5_create_table_idempotent sampleDB "T" "id" "S" (some "book_name") (some "S")).1
      sampleTable rfl,
   ((C5_create_table_idempotent ⟨[]⟩ "T" "id" "S" (some "book_name") (some "S")).2
      rfl).2.2.2⟩

/-- C8: over the schema shapes create_table produces, validate_keys returns
false exactly when the schema declares a sort key but no truthy one was
supplied, or the supplied partition key does not name a HASH-role attribute
of the schema, or a truthy supplied sort key does not name a RANGE-role
attribute; equivalently it returns true only when both declared roles are
satisfied exactly. -/
theorem C8_validate_keys_iff (td : TableData) (pk : String) (sk : Option String)
    (hs : schemaShaped td) :
    validate_keys td pk sk = false ↔
      ((∃ e ∈ td.keySchema, e.2 = "RANGE") ∧ strTruthy sk = false) ∨
      (¬∃ e ∈ td.keySchema, e.1 = pk ∧ e.2 = "HASH") ∨
      (strTruthy sk = true ∧ ¬∃ e ∈ td.keySchema, e.1 = sk.getD "" ∧ e.2 = "RANGE") := by
  rcases hs with ⟨p, hp⟩ | ⟨p, s0, hp⟩
  · by_cases hpk : p = pk
    · subst hpk
      by_cases ht : strTruthy sk = true <;>
        simp [validate_keys, hp, ht, beq_iff_eq]
    · have hpk2 : (p == pk) = false := by simp [hpk]
      simp [validate_keys, hp, hpk2, beq_iff_eq, hpk]
  · by_cases ht : strTruthy sk = true
    · by_cases hpk : p = pk
      · subst hpk
        by_cases hs0 : s0 = sk.getD ""
        · subst hs0
          simp [validate_keys, hp, ht, beq_iff_eq]
        · have hs02 : (s0 == sk.getD "") = false := by simp [hs0]
          simp [validate_keys, hp, ht, hs02, beq_iff_eq, hs0]
      · have hpk2 : (p == pk) = false := by simp [hpk]
        simp [validate_keys, hp, ht, hpk2, beq_iff_eq, hpk]
    · have ht2 : strTruthy sk = false := by
        simp only [Bool.not_eq_true] at ht
        exact ht
      simp [validate_keys, hp, ht2, beq_iff_eq]

theorem C8_validate_keys_iff_witness :
    schemaShaped sampleTable ∧
    (validate_keys sampleTable "id" none = false ↔
      ((∃ e ∈ sampleTable.keySchema, e.2 = "RANGE") ∧ strTruthy none = false) ∨
      (¬∃ e ∈ sampleTable.keySchema, e.1 = "id" ∧ e.2 = "HASH") ∨
      (strTruthy (none : Option String) = true ∧
        ¬∃ e ∈ sampleTable.keySchema, e.1 = (none : Option String).getD "" ∧ e.2 = "RANGE")) :=
  ⟨Or.inr ⟨"id", "book_name", rfl⟩,
   C8_validate_keys_iff sampleTable "id" none (Or.inr ⟨"id", "book_name", rfl⟩)⟩

theorem keyAttrsValid_any (td : TableData) (m : List (String × PyVal))
    (h : keyAttrsValid td m = true) :
    ∀ ks ∈ td.keySchema, m.any (fun e => e.1 == ks.1) = true := by
  intro ks hks
  rw [keyAttrsValid, List.all_eq_true] at h
  have hk := h ks hks
  rw [dictGet_isSome_any]
  cases hc : dictGet m ks.1 with
  | none =>
    rw [hc] at hk
    cases assocGet td.attributeDefinitions ks.1 <;> simp at hk
  | some v => simp

/-- C3: for a valid put_item call with prevent_overwrite (table present,
caller keys validated against the schema, item keys present, encoded key
attributes well typed, stored items carrying their key attributes): when an
item with the same primary key already exists, the backend write fails with
ConditionalCheckFailed and put_item returns the empty dict with the state
unchanged; when no such item exists the call succeeds and returns the
non-empty success response — a value distinct from the empty failure dict,
so callers can branch on it. -/
theorem C3_put_item_prevent_overwrite (db : DB) (name : String)
    (item : List (String × PyVal)) (pk : String) (sk : Option String) (td : TableData)
    (hdt : describe_table db name = some td)
    (hv : validate_keys td pk sk = true)
    (hc : check_item_keys item pk sk = true)
    (hka : keyAttrsValid td (convert_to_dynamodb_format item) = true)
    (hwf : ∀ i ∈ td.items, keyAttrsValid td i = true) :
    (∀ ex, td.items.find?
        (fun i => samePrimaryKey td i (convert_to_dynamodb_format item)) = some ex →
      ddbPutItem db name (convert_to_dynamodb_format item) (condAttrsFor true pk sk) =
        .error .conditionalCheckFailed ∧
      put_item db name item pk sk true = ([], db)) ∧
    (td.items.find?
        (fun i => samePrimaryKey td i (convert_to_dynamodb_format item)) = none →
      put_item db name item pk sk true =
        (putSuccessResponse,
          dbSetTable db name
            { td with items := td.items ++ [convert_to_dynamodb_format item] })) ∧
    putSuccessResponse ≠ ([] : List (String × PyVal)) := by
  have hdb : dbGetTable db name = some td := hdt
  refine ⟨?_, ?_, by decide⟩
  · intro ex hex
    have hcondAny : (condAttrsFor true pk sk).any
        (fun a => ex.any (fun e => e.1 == a)) = true := by
      have hmem := List.mem_of_find?_eq_some hex
      have hexv := hwf ex hmem
      have hany := validate_keys_hash td pk sk hv
      rw [List.any_eq_true] at hany
      obtain ⟨k, hk, hkp⟩ := hany
      rw [Bool.and_eq_true] at hkp
      have hk1 : k.1 = pk := by simpa using hkp.1
      have hexpk : ex.any (fun e => e.1 == pk) = true := by
        have hh := keyAttrsValid_any td ex hexv k hk
        rw [hk1] at hh
        exact hh
      simp [condAttrsFor, List.any_cons, hexpk]
    have hput : ddbPutItem db name (convert_to_dynamodb_format item)
        (condAttrsFor true pk sk) = .error .conditionalCheckFailed := by
      unfold ddbPutItem
      rw [hdb]
      dsimp only
      simp only [hka, Bool.not_true, Bool.false_eq_true, if_false]
      rw [hex]
      dsimp only
      simp [hcondAny]
    refine ⟨hput, ?_⟩
    unfold put_item
    rw [hdt]
    dsimp only
    simp only [hv, hc, Bool.not_true, Bool.false_eq_true, if_false]
    rw [hput]
  · intro hnone
    have hput : ddbPutItem db name (convert_to_dynamodb_format item)
        (condAttrsFor true pk sk) =
        .ok (dbSetTable db name
          { td with items := td.items ++ [convert_to_dynamodb_format item] }) := by
      unfold ddbPutItem
      rw [hdb]
      dsimp only
      simp only [hka, Bool.not_true, Bool.false_eq_true, if_false]
      rw [hnone]
    unfold put_item
    rw [hdt]
    dsimp only
    simp only [hv, hc, Bool.not_true, Bool.false_eq_true, if_false]
    rw [hput]

theorem C3_put_item_prevent_overwrite_witness :
    (ddbPutItem sampleDB1 "T" (convert_to_dynamodb_format sampleItem)
        (condAttrsFor true "id" (some "book_name")) = .error .conditionalCheckFailed ∧
      put_item sampleDB1 "T" sampleItem "id" (some "book_name") true = ([], sampleDB1)) ∧
    put_item sampleDB "T" sampleItem "id" (some "book_name") true =
      (putSuccessResponse,
        dbSetTable sampleDB "T"
          { sampleTable with items :=
              sampleTable.items ++ [convert_to_dynamodb_format sampleItem] }) ∧
    putSuccessResponse ≠ ([] : List (String × PyVal)) :=
  have h1 := C3_put_item_prevent_overwrite sampleDB1 "T" sampleItem "id" (some "book_name")
    ⟨[("id", "HASH"), ("book_name", "RANGE")], [("id", "S"), ("book_name", "S")],
      [convert_to_dynamodb_format sampleItem]⟩ rfl rfl rfl rfl (by decide)
  have h2 := C3_put_item_prevent_overwrite sampleDB "T" sampleItem "id" (some "book_name")
    sampleTable rfl rfl rfl rfl (by decide)
  ⟨h1.1 _ rfl, h2.2.1 rfl, h2.2.2⟩

/-- The table contents after the engine's DeleteItem removes the items
matching the encoded key. -/
def tdAfterDelete (td : TableData) (ck : List (String × PyVal)) : TableData :=
  { td with items := td.items.filter (fun i => !samePrimaryKey td i ck) }

/-- C6: for a delete_item call whose key mapping contains every declared key
attribute (with well-typed encoded values): if a stored item matches the
primary key it is removed — a subsequent get_item on the same key returns
the empty dict — and its pre-deletion attribute set is returned; if no item
matches, the call returns the empty dict without an error. -/
theorem C6_delete_item (db : DB) (name : String) (key : List (String × PyVal))
    (td : TableData)
    (hdt : describe_table db name = some td)
    (hkeys : (td.keySchema.map (fun k => k.1)).all
      (fun r => key.any (fun e => e.1 == r)) = true)
    (hka : keyAttrsValid td (convert_to_dynamodb_format key) = true) :
    (∀ ex, td.items.find?
        (fun i => samePrimaryKey td i (convert_to_dynamodb_format key)) = some ex →
      (delete_item db name key).1 = ex ∧
      get_item (delete_item db name key).2 name key = []) ∧
    (td.items.find?
        (fun i => samePrimaryKey td i (convert_to_dynamodb_format key)) = none →
      (delete_item db name key).1 = []) := by
  have hdb : dbGetTable db name = some td := hdt
  have hdel : ∀ r, td.items.find?
      (fun i => samePrimaryKey td i (convert_to_dynamodb_format key)) = r →
      ddbDeleteItem db name (convert_to_dynamodb_format key) =
        .ok (r, dbSetTable db name (tdAfterDelete td (convert_to_dynamodb_format key))) := by
    intro r hr
    unfold ddbDeleteItem
    rw [hdb]
    dsimp only
    simp only [hka, Bool.not_true, Bool.false_eq_true, if_false]
    rw [hr]
    rfl
  constructor
  · intro ex hex
    have hres : delete_item db name key =
        (ex, dbSetTable db name (tdAfterDelete td (convert_to_dynamodb_format key))) := by
      unfold delete_item
      rw [hdt]
      dsimp only
      simp only [hkeys, Bool.not_true, Bool.false_eq_true, if_false]
      rw [hdel (some ex) hex]
    refine ⟨by rw [hres], ?_⟩
    rw [hres]
    apply get_item_no_match
    intro td2 hdt2 i hi
    have hset : dbGetTable
        (dbSetTable db name (tdAfterDelete td (convert_to_dynamodb_format key))) name =
        some (tdAfterDelete td (convert_to_dynamodb_format key)) :=
      dbGetTable_dbSetTable db name td _ hdb
    have heq : tdAfterDelete td (convert_to_dynamodb_format key) = td2 := by
      have h2 : dbGetTable
          (dbSetTable db name (tdAfterDelete td (convert_to_dynamodb_format key))) name =
          some td2 := hdt2
      rw [hset] at h2
      exact Option.some.inj h2
    subst heq
    unfold tdAfterDelete at hi
    dsimp only at hi
    rw [List.mem_filter] at hi
    have hfalse := hi.2
    simp only [Bool.not_eq_true'] at hfalse
    exact hfalse
  · intro hnone
    unfold delete_item
    rw [hdt]
    dsimp only
    simp only [hkeys, Bool.not_true, Bool.false_eq_true, if_false]
    rw [hdel none hnone]

theorem C6_delete_item_witness :
    ((delete_item sampleDB1 "T" sampleKey).1 = convert_to_dynamodb_format sampleItem ∧
      get_item (delete_item sampleDB1 "T" sampleKey).2 "T" sampleKey = []) ∧
    (delete_item sampleDB "T" sampleKey).1 = [] :=
  have h1 := C6_delete_item sampleDB1 "T" sampleKey
    ⟨[("id", "HASH"), ("book_name", "RANGE")], [("id", "S"), ("book_name", "S")],
      [convert_to_dynamodb_format sampleItem]⟩ rfl rfl rfl
  have h2 := C6_delete_item sampleDB "T" sampleKey sampleTable rfl rfl rfl
  ⟨h1.1 _ rfl, h2.2 rfl⟩

/-- C10 (implicit): for get_item and delete_item, the item-absent outcome,
the table-does-not-exist outcome and every backend/client error all produce
the identical return value — the empty dict — so a caller cannot
distinguish normal absence from a backend failure by inspecting the
returned value. -/
theorem C10_absence_and_errors_identical :
    (∀ db name key, describe_table db name = none → get_item db name key = []) ∧
    (∀ db name key e, ddbGetItem db name (convert_to_dynamodb_format key) = .error e →
      get_item db name key = []) ∧
    (∀ db name key, ddbGetItem db name (convert_to_dynamodb_format key) = .ok none →
      get_item db name key = []) ∧
    (∀ db name key, describe_table db name = none → (delete_item db name key).1 = []) ∧
    (∀ db name key e, ddbDeleteItem db name (convert_to_dynamodb_format key) = .error e →
      (delete_item db name key).1 = []) ∧
    (∀ db name key db2,
      ddbDeleteItem db name (convert_to_dynamodb_format key) = .ok (none, db2) →
      (delete_item db name key).1 = []) := by
  refine ⟨?_, ?_, ?_, ?_, ?_, ?_⟩
  · intro db name key h
    unfold get_item
    rw [h]
  · intro db name key e hb
    unfold get_item
    cases hdt : describe_table db name with
    | none => rfl
    | some td =>
      dsimp only
      by_cases hg : getItemKeyMissing td key = true
      · simp [hg]
      · simp only [Bool.not_eq_true] at hg
        simp only [hg, Bool.false_eq_true, if_false]
        rw [hb]
  · intro db name key hb
    unfold get_item
    cases hdt : describe_table db name with
    | none => rfl
    | some td =>
      dsimp only
      by_cases hg : getItemKeyMissing td key = true
      · simp [hg]
      · simp only [Bool.not_eq_true] at hg
        simp only [hg, Bool.false_eq_true, if_false]
        rw [hb]
  · intro db name key h
    unfold delete_item
    rw [h]
  · intro db name key e hb
    unfold delete_item
    cases hdt : describe_table db name with
    | none => rfl
    | some td =>
      dsimp only
      by_cases hg : ((td.keySchema.map (fun k => k.1)).all
          (fun r => key.any (fun e2 => e2.1 == r))) = true
      · simp only [hg, Bool.not_true, Bool.false_eq_true, if_false]
        rw [hb]
      · have hg2 : ((td.keySchema.map (fun k => k.1)).all
            (fun r => key.any (fun e2 => e2.1 == r))) = false := by
          simp only [Bool.not_eq_true] at hg
          exact hg
        simp [hg2]
  · intro db name key db2 hb
    unfold delete_item
    cases hdt : describe_table db name with
    | none => rfl
    | some td =>
      dsimp only
      by_cases hg : ((td.keySchema.map (fun k => k.1)).all
          (fun r => key.any (fun e2 => e2.1 == r))) = true
      · simp only [hg, Bool.not_true, Bool.false_eq_true, if_false]
        rw [hb]
      · have hg2 : ((td.keySchema.map (fun k => k.1)).all
            (fun r => key.any (fun e2 => e2.1 == r))) = false := by
          simp only [Bool.not_eq_true] at hg
          exact hg
        simp [hg2]

theorem C10_absence_and_errors_identical_witness :
    get_item (⟨[]⟩ : DB) "T" sampleKey = [] ∧
    get_item sampleDB1 "T" (sampleKey ++ [("junk", PyVal.str "x")]) = [] ∧
    get_item sampleDB "T" sampleKey = [] ∧
    (delete_item (⟨[]⟩ : DB) "T" sampleKey).1 = [] ∧
    (delete_item sampleDB "T" [("id", PyVal.int 25), ("book_name", PyVal.str "b")]).1 = [] ∧
    (delete_item sampleDB "T" sampleKey).1 = [] :=
  ⟨C10_absence_and_errors_identical.1 ⟨[]⟩ "T" sampleKey rfl,
   C10_absence_and_errors_identical.2.1 sampleDB1 "T"
     (sampleKey ++ [("junk", PyVal.str "x")]) BackendError.validationError rfl,
   C10_absence_and_errors_identical.2.2.1 sampleDB "T" sampleKey rfl,
   C10_absence_and_errors_identical.2.2.2.1 ⟨[]⟩ "T" sampleKey rfl,
   C10_absence_and_errors_identical.2.2.2.2.1 sampleDB "T"
     [("id", PyVal.int 25), ("book_name", PyVal.str "b")] BackendError.validationError rfl,
   C10_absence_and_errors_identical.2.2.2.2.2 sampleDB "T" sampleKey sampleDB rfl⟩
